import Mathlib

/-!
# go-acapy-client: the present_proof example, the DID-exchange calls and the wallet calls

A shallow embedding of

* `examples/present_proof/main.go`: the `App` record, the seven webhook event
  handlers and the body of the command loop of `ReadCommands`;
* `did_exchange.go`: the three DID-exchange client calls;
* `wallet.go`: the seven wallet client calls.

Stateful code is written in explicit state-passing style.  Everything outside
the process (the remote agent behind `acapy.Client`, the HTTP transport behind
`post`/`get`/`patch`, the operator's terminal, the wall clock) is an argument of
the embedding, so that a theorem quantified over that argument holds for every
behaviour of the outside world.  Diagnostic prints (`fmt.Printf`) do not change
any state that the program reads back and are left out.
-/

set_option linter.dupNamespace false

namespace Acapy

/-- A Go `error` value; the nil error is `none` at the places an error is returned. -/
abbrev Error := String

/-! ## Records of the acapy package used by the example -/

/-- Modelled from the spec: the declaration of `acapy.Connection` is not among the
sources.  The record has the identifier, the counterparty alias and label, the
protocol state and the RFC state mirror, which are exactly the fields that
`main.go` reads or writes.  The default of every field is the Go zero value. -/
structure Connection where
  ConnectionID : String := ""
  Alias : String := ""
  TheirLabel : String := ""
  State : String := ""
  RFC23State : String := ""
deriving DecidableEq

/-- Modelled from the spec: the declaration of `acapy.Schema` is not among the
sources; `main.go` reads `ID` and `AttributeNames`. -/
structure Schema where
  ID : String := ""
  AttributeNames : List String := []
deriving DecidableEq

/-- Modelled from the spec: the credential held inside a credential exchange
record (declaration not among the sources); `main.go` reads `Referent` and ranges
over `Attributes`, a Go map from attribute name to value, kept here as an
association list. -/
structure CredentialInfo where
  Referent : String := ""
  Attributes : List (String × String) := []
deriving DecidableEq

/-- Modelled from the spec: the declaration of `acapy.CredentialExchangeRecord`
is not among the sources; the fields are those `main.go` reads. -/
structure CredentialExchangeRecord where
  CredentialExchangeID : String := ""
  ConnectionID : String := ""
  State : String := ""
  CredentialDefinitionID : String := ""
  Credential : CredentialInfo := {}
deriving DecidableEq

/-- The struct literal `acapy.PresentationAttribute{...}` of `ReadCommands` case "6". -/
structure PresentationAttribute where
  Name : String := ""
  CredentialDefinitionID : String := ""
  MimeType : String := ""
  Value : String := ""
  Referent : String := ""
deriving DecidableEq

/-- Modelled from the spec: `PresentationProposalDict.PresentationProposal` of a
presentation exchange record (declaration not among the sources); `main.go`
ranges over `Attributes`. -/
structure PresentationProposal where
  Attributes : List PresentationAttribute := []
deriving DecidableEq

/-- Modelled from the spec: the `PresentationProposalDict` field of a presentation
exchange record (declaration not among the sources). -/
structure PresentationProposalDict where
  PresentationProposal : PresentationProposal := {}
deriving DecidableEq

/-- The struct literal `acapy.NonRevoked{From: ..., To: ...}`: a non-revocation
interval in Unix seconds. -/
structure NonRevoked where
  From : Int := 0
  To : Int := 0
deriving DecidableEq

/-- Modelled from the spec: `acapy.NewRequestedAttribute(restrictions, name, names,
nonRevoked)` is not among the sources.  Its result is represented by the arguments
of the call (an attribute constraint: a name, optional restrictions and a
non-revocation interval); a nil slice is the empty list.  `main.go` discards the
error that the constructor returns. -/
structure RequestedAttribute where
  Restrictions : List String := []
  Name : String := ""
  Names : List String := []
  NonRevoked : NonRevoked := {}
deriving DecidableEq

/-- Modelled from the spec: `acapy.NewProofRequest(name, nonce, requestedPredicates,
requestedAttributes, version, nonRevoked)` is not among the sources.  Its result is
represented by the arguments of the call; the Go map of requested attributes is an
association list and the pointer to the global interval is an `Option`. -/
structure ProofRequest where
  Name : String := ""
  Nonce : String := ""
  RequestedPredicates : List (String × String) := []
  RequestedAttributes : List (String × RequestedAttribute) := []
  Version : String := ""
  NonRevoked : Option NonRevoked := none
deriving DecidableEq

/-- Modelled from the spec: the declaration of `acapy.PresentationExchangeRecord`
is not among the sources; the fields are those `main.go` reads.  The presentation
request carried by the record has the shape of a proof request (the requested
attributes with a global non-revocation window). -/
structure PresentationExchangeRecord where
  PresentationExchangeID : String := ""
  ConnectionID : String := ""
  State : String := ""
  PresentationProposalDict : PresentationProposalDict := {}
  PresentationRequest : ProofRequest := {}
deriving DecidableEq

/-- Modelled from the spec: the declaration of `acapy.RevocationRegistry` is not
among the sources; an identifier and a state. -/
structure RevocationRegistry where
  RevocationRegistryID : String := ""
  State : String := ""
deriving DecidableEq

/-- Modelled from the spec: the declaration of `acapy.ProblemReportEvent` is not
among the sources; the handler only prints the event, which is carried as text. -/
structure ProblemReportEvent where
  text : String := ""
deriving DecidableEq

/-- Modelled from the spec: the declaration of `acapy.CredentialRevocationRecord`
is not among the sources; the fields are those the handler prints. -/
structure CredentialRevocationRecord where
  CredentialExchangeID : String := ""
  RecordID : String := ""
  State : String := ""
deriving DecidableEq

/-- Modelled from the spec: the declaration of `acapy.OutOfBandEvent` is not among
the sources; the fields are those the handler prints. -/
structure OutOfBandEvent where
  InvitationID : String := ""
  State : String := ""
deriving DecidableEq

/-- Modelled from the spec: the declaration of `acapy.OutOfBandInvitation` is not
among the sources and `main.go` never reads a field of it; the invitation is
carried as its JSON text. -/
structure OutOfBandInvitation where
  json : String := ""
deriving DecidableEq

/-- The struct literal `acapy.CreateOutOfBandInvitationRequest{...}` of case "1". -/
structure CreateOutOfBandInvitationRequest where
  Alias : String := ""
  HandshakeProtocols : List String := []
  MyLabel : String := ""
deriving DecidableEq

/-- Modelled from the spec: the response of `CreateOutOfBandInvitation`
(declaration not among the sources); `main.go` reads `Invitation`. -/
structure CreateOutOfBandInvitationResponse where
  Invitation : OutOfBandInvitation := {}
deriving DecidableEq

/-- The struct literal `acapy.CredentialPreviewAttribute{...}` of case "5". -/
structure CredentialPreviewAttribute where
  Name : String := ""
  MimeType : String := ""
  Value : String := ""
deriving DecidableEq

/-- Modelled from the spec: `acapy.NewCredentialPreview(attributes)` is not among
the sources; its result is represented by the argument of the call. -/
structure CredentialPreview where
  Attributes : List CredentialPreviewAttribute := []
deriving DecidableEq

/-- Modelled from the spec: `acapy.NewPresentationPreview(attributes, predicates)`
is not among the sources; its result is represented by the arguments of the call. -/
structure PresentationPreview where
  Attributes : List PresentationAttribute := []
  Predicates : List String := []
deriving DecidableEq

/-- The struct literal `acapy.PresentationProposalRequest{...}` of case "6". -/
structure PresentationProposalRequest where
  Comment : String := ""
  AutoPresent : Bool := false
  PresentationPreview : PresentationPreview := {}
  ConnectionID : String := ""
  Trace : Bool := false
deriving DecidableEq

/-- The struct literal `acapy.PresentationRequestRequest{...}` of case "7". -/
structure PresentationRequestRequest where
  Trace : Bool := false
  Comment : String := ""
  ConnectionID : String := ""
  ProofRequest : ProofRequest := {}
deriving DecidableEq

/-- Modelled from the spec: `acapy.NewPresentationProof(a, b, c)` is not among the
sources; its result is represented by the arguments of the call.  The first
argument maps each matched attribute name to the referent of the chosen
credential; `main.go` passes nil for the other two. -/
structure PresentationProof where
  RequestedAttributes : List (String × String) := []
  Second : List (String × String) := []
  Third : List (String × String) := []
deriving DecidableEq

/-- Modelled from the spec: one element of the result of
`GetPresentationCredentialsByID` (declaration not among the sources); `main.go`
prints `CredentialInfo.Referent` and `CredentialInfo.Attrs`. -/
structure PresentationCredential where
  Referent : String := ""
  Attrs : List (String × String) := []
deriving DecidableEq

/-! ## The remote agent -/

/-- One call of `main.go` on `app.client`, with its arguments. -/
inductive Call where
  | CreateOutOfBandInvitation (request : CreateOutOfBandInvitationRequest)
      (autoAccept multiUse : Bool)
  | ReceiveOutOfBandInvitation (invitation : OutOfBandInvitation) (autoAccept : Bool)
  | RegisterSchema (name version : String) (attributes : List String)
  | CreateCredentialDefinition (tag : String) (supportRevocation : Bool)
      (revocationRegistrySize : Int) (schemaID : String)
  | IssueCredential (connectionID : String) (preview : CredentialPreview)
      (comment credentialDefinitionID issuerDID schemaID : String)
  | CredentialMimeTypes (referent : String)
  | SendPresentationProposal (proposal : PresentationProposalRequest)
  | SendPresentationRequestByID (presentationExchangeID : String)
      (request : PresentationRequestRequest)
  | FindMatchingCredentials (request : ProofRequest)
  | SendPresentationByID (presentationExchangeID : String) (proof : PresentationProof)
  | VerifyPresentationByID (presentationExchangeID : String)
  | GetPresentationCredentialsByID (presentationExchangeID : String) (count : Int)
      (wql : String) (referents : List String) (start : Int)
  | GetConnection (connectionID : String)
deriving DecidableEq

/-- The remote agent behind `app.client`.  The methods of `acapy.Client` that
`main.go` calls are not among the sources; each is an arbitrary function of the
calls made so far and of the arguments of the present call, so that two calls
with the same arguments may be answered differently.  A Go result `(v, err)` is
the pair of `v` and an optional error.  `FindMatchingCredentials` answers, as
the Credential Matcher of the specification, with the matched attributes and
the set of unmatched attribute names. -/
structure Agent where
  CreateOutOfBandInvitation : List Call → CreateOutOfBandInvitationRequest → Bool → Bool →
    CreateOutOfBandInvitationResponse × Option Error
  ReceiveOutOfBandInvitation : List Call → OutOfBandInvitation → Bool →
    Connection × Option Error
  RegisterSchema : List Call → String → String → List String → Schema × Option Error
  CreateCredentialDefinition : List Call → String → Bool → Int → String →
    String × Option Error
  IssueCredential : List Call → String → CredentialPreview → String → String → String →
    String → CredentialExchangeRecord × Option Error
  CredentialMimeTypes : List Call → String → List (String × String) × Option Error
  SendPresentationProposal : List Call → PresentationProposalRequest →
    PresentationExchangeRecord × Option Error
  SendPresentationRequestByID : List Call → String → PresentationRequestRequest →
    PresentationExchangeRecord × Option Error
  FindMatchingCredentials : List Call → ProofRequest →
    List (String × String) × List String × Option Error
  SendPresentationByID : List Call → String → PresentationProof →
    PresentationExchangeRecord × Option Error
  VerifyPresentationByID : List Call → String → PresentationExchangeRecord × Option Error
  GetPresentationCredentialsByID : List Call → String → Int → String → List String → Int →
    List PresentationCredential × Option Error
  GetConnection : List Call → String → Connection × Option Error

/-- The part of the outside world that the example changes: the calls made on
the remote agent so far, the lines the operator has yet to type, and the number
of clock readings taken so far. -/
structure World where
  calls : List Call := []
  stdin : List String := []
  ticks : Nat := 0
deriving DecidableEq

/-- The call `app.client.GetConnection(id)`: the call is recorded and the agent answers. -/
def World.GetConnection (agent : Agent) (id : String) (w : World) :
    (Connection × Option Error) × World :=
  (agent.GetConnection w.calls id, { w with calls := w.calls ++ [Call.GetConnection id] })

/-! ## The application state -/

/-- The `App` struct of `main.go`.  The pointers `client` and `server` refer to
the outside world (the `Agent` argument of every operation). -/
structure App where
  ledgerURL : String := ""
  tailsServerURL : String := ""
  port : Int := 0
  label : String := ""
  seed : String := ""
  rand : String := ""
  myDID : String := ""
  connection : Connection := {}
  schema : Schema := {}
  credentialDefinitionID : String := ""
  credentialExchange : CredentialExchangeRecord := {}
  presentationExchange : PresentationExchangeRecord := {}
  revocationRegistry : RevocationRegistry := {}
deriving DecidableEq

/-! ## The webhook event handlers -/

/-- `App.ConnectionsEventHandler`: an event without alias takes the label of the
connection that the agent returns (the error of `GetConnection` is discarded);
the event is then stored. -/
def App.ConnectionsEventHandler (agent : Agent) (event : Connection) (app : App) (w : World) :
    App × World :=
  if event.Alias = "" then
    let r := w.GetConnection agent event.ConnectionID
    let connection := r.1.1
    let event := { event with Alias := connection.TheirLabel }
    ({ app with connection := event }, r.2)
  else
    ({ app with connection := event }, w)

/-- `App.CredentialExchangeEventHandler`. -/
def App.CredentialExchangeEventHandler (agent : Agent) (event : CredentialExchangeRecord)
    (app : App) (w : World) : App × World :=
  let r := w.GetConnection agent event.ConnectionID
  ({ app with credentialExchange := event }, r.2)

/-- `App.RevocationRegistryEventHandler`. -/
def App.RevocationRegistryEventHandler (_agent : Agent) (event : RevocationRegistry)
    (app : App) (w : World) : App × World :=
  ({ app with revocationRegistry := event }, w)

/-- `App.ProblemReportEventHandler`: prints only. -/
def App.ProblemReportEventHandler (_agent : Agent) (_event : ProblemReportEvent)
    (app : App) (w : World) : App × World :=
  (app, w)

/-- `App.PresentationExchangeEventHandler`. -/
def App.PresentationExchangeEventHandler (agent : Agent) (event : PresentationExchangeRecord)
    (app : App) (w : World) : App × World :=
  let app := { app with presentationExchange := event }
  let r := w.GetConnection agent event.ConnectionID
  (app, r.2)

/-- `App.CredentialRevocationEventHandler`: prints only. -/
def App.CredentialRevocationEventHandler (_agent : Agent) (_event : CredentialRevocationRecord)
    (app : App) (w : World) : App × World :=
  (app, w)

/-- `App.OutOfBandEventHandler`: prints only. -/
def App.OutOfBandEventHandler (_agent : Agent) (_event : OutOfBandEvent)
    (app : App) (w : World) : App × World :=
  (app, w)

/-- A decoded webhook notification, tagged with the handler that
`StartWebserver` registers for its topic in `acapy.WebhookHandlers`. -/
inductive Event where
  | Connections (event : Connection)
  | ProblemReport (event : ProblemReportEvent)
  | CredentialExchange (event : CredentialExchangeRecord)
  | RevocationRegistry (event : RevocationRegistry)
  | PresentationExchange (event : PresentationExchangeRecord)
  | CredentialRevocation (event : CredentialRevocationRecord)
  | OutOfBand (event : OutOfBandEvent)
deriving DecidableEq

/-- Modelled from the spec: `acapy.CreateWebhooksHandler` is not among the sources.
Following the Topic Router, the delivery of one decoded notification invokes
exactly one handler, the one registered for its topic. -/
def App.deliver (agent : Agent) (e : Event) (app : App) (w : World) : App × World :=
  match e with
  | Event.Connections event => app.ConnectionsEventHandler agent event w
  | Event.ProblemReport event => app.ProblemReportEventHandler agent event w
  | Event.CredentialExchange event => app.CredentialExchangeEventHandler agent event w
  | Event.RevocationRegistry event => app.RevocationRegistryEventHandler agent event w
  | Event.PresentationExchange event => app.PresentationExchangeEventHandler agent event w
  | Event.CredentialRevocation event => app.CredentialRevocationEventHandler agent event w
  | Event.OutOfBand event => app.OutOfBandEventHandler agent event w

/-- Delivery of a sequence of notifications, first to last. -/
def App.deliverAll (agent : Agent) : List Event → App → World → App × World
  | [], app, w => (app, w)
  | e :: es, app, w =>
    let r := app.deliver agent e w
    App.deliverAll agent es r.1 r.2

/-! ## The command loop of `ReadCommands` -/

/-- A Go `time.Time`, as nanoseconds since the Unix epoch; a `time.Duration` is a
number of nanoseconds.  The readings of a real clock and one week are far from
the bounds of `int64`, so no wrap-around is modelled. -/
abbrev Time := Int

/-- `time.Hour`. -/
def Hour : Int := 3600 * 1000000000

/-- `Time.Add`. -/
def Time.Add (t : Time) (d : Int) : Time := t + d

/-- `Time.Unix`: whole seconds since the epoch (rounded down). -/
def Time.Unix (t : Time) : Int := t / 1000000000

/-- What the command loop takes from outside the process besides the operator input:
the remote agent, the wall clock (the n-th reading of `time.Now()`), the
constant `acapy.DefaultHandshakeProtocols` (not among the sources) and
`json.Unmarshal` into an `acapy.OutOfBandInvitation`. -/
structure Env where
  agent : Agent
  clock : Nat → Time
  DefaultHandshakeProtocols : List String
  Unmarshal : String → OutOfBandInvitation × Option Error

/-- The pair `scanner.Scan(); scanner.Text()`: the next line of the operator, the
empty string once the input has ended. -/
def World.Scan (w : World) : String × World :=
  match w.stdin with
  | [] => ("", w)
  | l :: ls => (l, { w with stdin := ls })

/-- The call `time.Now()`. -/
def World.Now (clock : Nat → Time) (w : World) : Time × World :=
  (clock w.ticks, { w with ticks := w.ticks + 1 })

/-- Records a call on the remote agent. -/
def World.record (c : Call) (w : World) : World :=
  { w with calls := w.calls ++ [c] }

/-- Assignment `m[k] = v` on a Go map kept as an association list. -/
def mapSet {β : Type} : List (String × β) → String → β → List (String × β)
  | [], k, v => [(k, v)]
  | (k0, v0) :: rest, k, v =>
    if k0 = k then (k, v) :: rest else (k0, v0) :: mapSet rest k v

/-- Lookup `m[k]` on a Go map of strings: the empty string when the key is absent. -/
def mapGet : List (String × String) → String → String
  | [], _ => ""
  | (k0, v0) :: rest, k => if k0 = k then v0 else mapGet rest k

/-- How one pass of the command loop ends: the loop goes on with the application
state, or `app.Exit(err)` has ended the process. -/
inductive Outcome where
  | running (app : App)
  | exited (err : Option Error)
deriving DecidableEq

/-- `App.RegisterSchema`. -/
def App.RegisterSchema (agent : Agent) (name version : String) (attributes : List String)
    (w : World) : (Schema × Option Error) × World :=
  let r := agent.RegisterSchema w.calls name version attributes
  let w := w.record (Call.RegisterSchema name version attributes)
  match r.2 with
  | some err => (({}, some err), w)
  | none => ((r.1, none), w)

/-- `App.ReceiveInvitation`. -/
def App.ReceiveInvitation (env : Env) (inv : String) (w : World) :
    (Connection × Option Error) × World :=
  let d := env.Unmarshal inv
  match d.2 with
  | some err => (({}, some err), w)
  | none =>
    (env.agent.ReceiveOutOfBandInvitation w.calls d.1 true,
      w.record (Call.ReceiveOutOfBandInvitation d.1 true))

/-- Case "1": create invitation. -/
def App.ReadCommands.case1 (env : Env) (app : App) (w : World) : Outcome × World :=
  let s := w.Scan
  let theirLabel := s.1
  let w := s.2
  let request : CreateOutOfBandInvitationRequest :=
    { Alias := theirLabel
      HandshakeProtocols := env.DefaultHandshakeProtocols
      MyLabel := app.label }
  let r := env.agent.CreateOutOfBandInvitation w.calls request true false
  let w := w.record (Call.CreateOutOfBandInvitation request true false)
  match r.2 with
  | some err => (Outcome.exited (some err), w)
  | none => (Outcome.running app, w)

/-- Case "2": receive invitation. -/
def App.ReadCommands.case2 (env : Env) (app : App) (w : World) : Outcome × World :=
  let s := w.Scan
  let invitation := s.1
  let r := App.ReceiveInvitation env invitation s.2
  match r.1.2 with
  | some err => (Outcome.exited (some err), r.2)
  | none => (Outcome.running { app with connection := r.1.1 }, r.2)

/-- Case "3": register schema. -/
def App.ReadCommands.case3 (env : Env) (app : App) (w : World) : Outcome × World :=
  let s1 := w.Scan
  let schemaName := s1.1
  let s2 := s1.2.Scan
  let version := s2.1
  let s3 := s2.2.Scan
  let attributesString := s3.1
  let attributes := attributesString.splitOn ","
  let r := App.RegisterSchema env.agent schemaName version attributes s3.2
  match r.1.2 with
  | some err => (Outcome.exited (some err), r.2)
  | none => (Outcome.running { app with schema := r.1.1 }, r.2)

/-- Case "4": create credential definition. -/
def App.ReadCommands.case4 (env : Env) (app : App) (w : World) : Outcome × World :=
  let r := env.agent.CreateCredentialDefinition w.calls "tag" true 10 app.schema.ID
  let w := w.record (Call.CreateCredentialDefinition "tag" true 10 app.schema.ID)
  match r.2 with
  | some err => (Outcome.exited (some err), w)
  | none => (Outcome.running { app with credentialDefinitionID := r.1 }, w)

/-- The loop of case "5" over `app.schema.AttributeNames`: one value is read per
attribute name and appended to the preview attributes. -/
def App.ReadCommands.previewAttributes :
    List String → List CredentialPreviewAttribute → World →
      List CredentialPreviewAttribute × World
  | [], attributes, w => (attributes, w)
  | attr :: rest, attributes, w =>
    let s := w.Scan
    let value := s.1
    App.ReadCommands.previewAttributes rest
      (attributes ++ [{ Name := attr, MimeType := "text/plain", Value := value }]) s.2

/-- Case "5": issue credential. -/
def App.ReadCommands.case5 (env : Env) (app : App) (w : World) : Outcome × World :=
  let s := w.Scan
  let comment := s.1
  let l := App.ReadCommands.previewAttributes app.schema.AttributeNames [] s.2
  let attributes := l.1
  let w := l.2
  let preview : CredentialPreview := { Attributes := attributes }
  let r := env.agent.IssueCredential w.calls app.connection.ConnectionID preview comment
    app.credentialDefinitionID app.myDID app.schema.ID
  let w := w.record (Call.IssueCredential app.connection.ConnectionID preview comment
    app.credentialDefinitionID app.myDID app.schema.ID)
  match r.2 with
  | some err => (Outcome.exited (some err), w)
  | none => (Outcome.running { app with credentialExchange := r.1 }, w)

/-- The loop of case "6" over the attributes of the held credential (a Go map,
ranged over here in the order of the association list). -/
def App.ReadCommands.proposalAttributes (app : App) (mimeTypes : List (String × String)) :
    List (String × String) → List PresentationAttribute → List PresentationAttribute
  | [], attributes => attributes
  | (attrName, attrValue) :: rest, attributes =>
    App.ReadCommands.proposalAttributes app mimeTypes rest
      (attributes ++ [{ Name := attrName
                        CredentialDefinitionID := app.credentialExchange.CredentialDefinitionID
                        MimeType := mapGet mimeTypes attrName
                        Value := attrValue
                        Referent := app.credentialExchange.Credential.Referent }])

/-- Case "6": send presentation proposal. -/
def App.ReadCommands.case6 (env : Env) (app : App) (w : World) : Outcome × World :=
  let s := w.Scan
  let comment := s.1
  let w := s.2
  let m := env.agent.CredentialMimeTypes w.calls app.credentialExchange.Credential.Referent
  let w := w.record (Call.CredentialMimeTypes app.credentialExchange.Credential.Referent)
  let mimeTypes := m.1
  let attributes := App.ReadCommands.proposalAttributes app mimeTypes
    app.credentialExchange.Credential.Attributes []
  let proposal : PresentationProposalRequest :=
    { Comment := comment
      AutoPresent := false
      PresentationPreview := { Attributes := attributes, Predicates := [] }
      ConnectionID := app.connection.ConnectionID
      Trace := false }
  let r := env.agent.SendPresentationProposal w.calls proposal
  let w := w.record (Call.SendPresentationProposal proposal)
  match r.2 with
  | some err => (Outcome.exited (some err), w)
  | none => (Outcome.running { app with presentationExchange := r.1 }, w)

/-- The loop of case "7" over the attributes of the presentation proposal: for
each attribute the clock is read twice, first for `From`, then for `To`, and the
requested attribute is stored in the map under the attribute name. -/
def App.ReadCommands.requestedAttributes (clock : Nat → Time) :
    List PresentationAttribute → List (String × RequestedAttribute) → World →
      List (String × RequestedAttribute) × World
  | [], requestedAttributes, w => (requestedAttributes, w)
  | attr :: rest, requestedAttributes, w =>
    let t1 := w.Now clock
    let t2 := t1.2.Now clock
    let requestedAttribute : RequestedAttribute :=
      { Restrictions := []
        Name := attr.Name
        Names := []
        NonRevoked :=
          { From := (t1.1.Add (-Hour * 24 * 7)).Unix
            To := t2.1.Unix } }
    App.ReadCommands.requestedAttributes clock rest
      (mapSet requestedAttributes attr.Name requestedAttribute) t2.2

/-- The request that case "7" builds, with the world after the clock readings. -/
def App.ReadCommands.presentationRequest (clock : Nat → Time) (app : App) (comment : String)
    (w : World) : PresentationRequestRequest × World :=
  let l := App.ReadCommands.requestedAttributes clock
    app.presentationExchange.PresentationProposalDict.PresentationProposal.Attributes [] w
  let requestedAttributes := l.1
  let t1 := l.2.Now clock
  let t2 := t1.2.Now clock
  ({ Trace := false
     Comment := comment
     ConnectionID := app.connection.ConnectionID
     ProofRequest :=
       { Name := "Proof request"
         Nonce := "1234567890"
         RequestedPredicates := []
         RequestedAttributes := requestedAttributes
         Version := "1.0"
         NonRevoked := some
           { From := (t1.1.Add (-Hour * 24 * 7)).Unix
             To := (t2.1.Add (Hour * 24 * 7)).Unix } } }, t2.2)

/-- Case "7": send presentation request. -/
def App.ReadCommands.case7 (env : Env) (app : App) (w : World) : Outcome × World :=
  let s := w.Scan
  let comment := s.1
  let b := App.ReadCommands.presentationRequest env.clock app comment s.2
  let request := b.1
  let w := b.2
  let r := env.agent.SendPresentationRequestByID w.calls
    app.presentationExchange.PresentationExchangeID request
  let w := w.record
    (Call.SendPresentationRequestByID app.presentationExchange.PresentationExchangeID request)
  match r.2 with
  | some err => (Outcome.exited (some err), w)
  | none => (Outcome.running { app with presentationExchange := r.1 }, w)

/-- Case "8": send presentation.  The second result of `FindMatchingCredentials`
is assigned to the blank identifier, and its error is overwritten by the error of
`SendPresentationByID` before being read. -/
def App.ReadCommands.case8 (env : Env) (app : App) (w : World) : Outcome × World :=
  let f := env.agent.FindMatchingCredentials w.calls app.presentationExchange.PresentationRequest
  let w := w.record (Call.FindMatchingCredentials app.presentationExchange.PresentationRequest)
  let requestedAttributes := f.1
  let proof : PresentationProof :=
    { RequestedAttributes := requestedAttributes, Second := [], Third := [] }
  let r := env.agent.SendPresentationByID w.calls
    app.presentationExchange.PresentationExchangeID proof
  let w := w.record
    (Call.SendPresentationByID app.presentationExchange.PresentationExchangeID proof)
  match r.2 with
  | some err => (Outcome.exited (some err), w)
  | none => (Outcome.running { app with presentationExchange := r.1 }, w)

/-- Case "9": verify presentation. -/
def App.ReadCommands.case9 (env : Env) (app : App) (w : World) : Outcome × World :=
  let r := env.agent.VerifyPresentationByID w.calls
    app.presentationExchange.PresentationExchangeID
  let w := w.record (Call.VerifyPresentationByID app.presentationExchange.PresentationExchangeID)
  match r.2 with
  | some err => (Outcome.exited (some err), w)
  | none => (Outcome.running { app with presentationExchange := r.1 }, w)

/-- Case "10": list presentation proofs. -/
def App.ReadCommands.case10 (env : Env) (app : App) (w : World) : Outcome × World :=
  let r := env.agent.GetPresentationCredentialsByID w.calls
    app.presentationExchange.PresentationExchangeID 0 "" [] 0
  let w := w.record
    (Call.GetPresentationCredentialsByID app.presentationExchange.PresentationExchangeID
      0 "" [] 0)
  match r.2 with
  | some err => (Outcome.exited (some err), w)
  | none => (Outcome.running app, w)

/-- The `switch command` statement of the loop of `ReadCommands`; a command that
matches no case does nothing. -/
def App.ReadCommands.switch (env : Env) (command : String) (app : App) (w : World) :
    Outcome × World :=
  if command = "exit" then (Outcome.exited none, w)
  else if command = "1" then App.ReadCommands.case1 env app w
  else if command = "2" then App.ReadCommands.case2 env app w
  else if command = "3" then App.ReadCommands.case3 env app w
  else if command = "4" then App.ReadCommands.case4 env app w
  else if command = "5" then App.ReadCommands.case5 env app w
  else if command = "6" then App.ReadCommands.case6 env app w
  else if command = "7" then App.ReadCommands.case7 env app w
  else if command = "8" then App.ReadCommands.case8 env app w
  else if command = "9" then App.ReadCommands.case9 env app w
  else if command = "10" then App.ReadCommands.case10 env app w
  else (Outcome.running app, w)

/-- One pass of the loop of `ReadCommands`: the command is read from the operator
and the switch runs. -/
def App.ReadCommands.pass (env : Env) (app : App) (w : World) : Outcome × World :=
  let s := w.Scan
  App.ReadCommands.switch env s.1 app s.2

/-! ## The client calls of `did_exchange.go` and `wallet.go` -/

/-- The HTTP method named by the transport helper that a client call uses:
`c.get`, `c.post` or `c.patch`. -/
inductive Method where
  | GET
  | POST
  | PATCH
deriving DecidableEq

/-- One call of a transport helper: the method, the path, the query parameters (a
Go map, kept as an association list) and the JSON body (nil is `none`, a struct
is the list of its tagged fields). -/
structure Request where
  method : Method
  path : String
  queryParams : List (String × String) := []
  body : Option (List (String × String)) := none
deriving DecidableEq

/-- The `DID` struct of `wallet.go`. -/
structure DID where
  DID : String := ""
  VerKey : String := ""
  Posture : String := ""
  KeyType : String := ""
  Method : String := ""
deriving DecidableEq

/-- `type QueryDIDsParams DID`. -/
abbrev QueryDIDsParams := DID

/-- The local type `results` of `QueryDIDs`. -/
structure results where
  DIDs : List DID := []
deriving DecidableEq

/-- The type `didResult` of `wallet.go`. -/
structure didResult where
  DID : DID := {}
deriving DecidableEq

/-- The anonymous response struct of `GetDIDEndpointFromWallet`. -/
structure didEndpoint where
  DID : String := ""
  Endpoint : String := ""
deriving DecidableEq

/-- The types of the response objects that the calls of `did_exchange.go` and
`wallet.go` hand to the transport helpers (`nil` is `none`). -/
inductive ResponseKind where
  | toConnection
  | toResults
  | toDidResult
  | toDidEndpoint
  | toNil
deriving DecidableEq

/-- The Go type behind each kind of response object. -/
@[reducible] def ResponseKind.type : ResponseKind → Type
  | ResponseKind.toConnection => Connection
  | ResponseKind.toResults => results
  | ResponseKind.toDidResult => didResult
  | ResponseKind.toDidEndpoint => didEndpoint
  | ResponseKind.toNil => Unit

/-- Modelled from the spec: the `Client` type and its helpers `post`, `get` and
`patch` are not among the sources.  Following the Transport Collaborator
interface (`call(method, path, queryParams, jsonBody) → (decoded response,
error)`), the transport is an arbitrary function of the requests made so far,
of the present request and of the response object handed in; it returns an
optional error and the response object as the helper leaves it, which may be
changed also when an error is returned. -/
structure Client where
  transport : List Request → Request → (k : ResponseKind) → k.type → Option Error × k.type

/-- Modelled from the spec: the helper `c.post(path, queryParams, body,
responseObject)`, not among the sources: one POST request is made and recorded. -/
def Client.post (c : Client) (path : String) (queryParams : List (String × String))
    (body : Option (List (String × String))) (k : ResponseKind) (responseObject : k.type)
    (log : List Request) : (Option Error × k.type) × List Request :=
  let rq : Request :=
    { method := Method.POST, path := path, queryParams := queryParams, body := body }
  (c.transport log rq k responseObject, log ++ [rq])

/-- Modelled from the spec: the helper `c.get(path, queryParams, responseObject)`,
not among the sources: one GET request is made and recorded. -/
def Client.get (c : Client) (path : String) (queryParams : List (String × String))
    (k : ResponseKind) (responseObject : k.type)
    (log : List Request) : (Option Error × k.type) × List Request :=
  let rq : Request :=
    { method := Method.GET, path := path, queryParams := queryParams, body := none }
  (c.transport log rq k responseObject, log ++ [rq])

/-- Modelled from the spec: the helper `c.patch(path, queryParams, body,
responseObject)`, not among the sources: one PATCH request is made and recorded. -/
def Client.patch (c : Client) (path : String) (queryParams : List (String × String))
    (body : Option (List (String × String))) (k : ResponseKind) (responseObject : k.type)
    (log : List Request) : (Option Error × k.type) × List Request :=
  let rq : Request :=
    { method := Method.PATCH, path := path, queryParams := queryParams, body := body }
  (c.transport log rq k responseObject, log ++ [rq])

/-- `Client.DIDExchangeAcceptInvitation`. -/
def Client.DIDExchangeAcceptInvitation (c : Client) (connectionID myEndpoint myLabel : String)
    (log : List Request) : (Connection × Option Error) × List Request :=
  let connection : Connection := {}
  let queryParams := [("my_endpoint", myEndpoint), ("my_label", myLabel)]
  let r := c.post ("/didexchange/" ++ connectionID ++ "/accept-invitation") queryParams none
    ResponseKind.toConnection connection log
  match r.1.1 with
  | some err => (({}, some err), r.2)
  | none => ((r.1.2, none), r.2)

/-- `Client.DIDExchangeAcceptRequest`. -/
def Client.DIDExchangeAcceptRequest (c : Client) (connectionID myEndpoint : String)
    (log : List Request) : (Connection × Option Error) × List Request :=
  let connection : Connection := {}
  let queryParams := [("my_endpoint", myEndpoint)]
  let r := c.post ("/didexchange/" ++ connectionID ++ "/accept-request") queryParams none
    ResponseKind.toConnection connection log
  match r.1.1 with
  | some err => (({}, some err), r.2)
  | none => ((r.1.2, none), r.2)

/-- `Client.DIDExchangeCreateRequest`. -/
def Client.DIDExchangeCreateRequest (c : Client)
    (theirPublicDID mediationID myEndpoint myLabel : String)
    (log : List Request) : (Connection × Option Error) × List Request :=
  let connection : Connection := {}
  let queryParams :=
    [("their_public_did", theirPublicDID), ("mediation_id", mediationID),
     ("my_endpoint", myEndpoint), ("my_label", myLabel)]
  let r := c.post "/didexchange/create-request" queryParams none
    ResponseKind.toConnection connection log
  match r.1.1 with
  | some err => (({}, some err), r.2)
  | none => ((r.1.2, none), r.2)

/-- `Client.QueryDIDs`; the nil slice returned on error is the empty list. -/
def Client.QueryDIDs (c : Client) (params : QueryDIDsParams) (log : List Request) :
    (List DID × Option Error) × List Request :=
  let r0 : results := {}
  let queryParams :=
    [("did", params.DID), ("verkey", params.VerKey), ("posture", params.Posture),
     ("key_type", params.KeyType), ("method", params.Method)]
  let r := c.get "/wallet/did" queryParams ResponseKind.toResults r0 log
  match r.1.1 with
  | some err => (([], some err), r.2)
  | none => ((r.1.2.DIDs, none), r.2)

/-- `Client.CreateLocalDID`. -/
def Client.CreateLocalDID (c : Client) (log : List Request) :
    (DID × Option Error) × List Request :=
  let r0 : didResult := {}
  let r := c.post "/wallet/didResult/create" [] none ResponseKind.toDidResult r0 log
  match r.1.1 with
  | some err => (({}, some err), r.2)
  | none => ((r.1.2.DID, none), r.2)

/-- `Client.GetPublicDID`. -/
def Client.GetPublicDID (c : Client) (log : List Request) :
    (DID × Option Error) × List Request :=
  let r0 : didResult := {}
  let r := c.get "/wallet/did/public" [] ResponseKind.toDidResult r0 log
  match r.1.1 with
  | some err => (({}, some err), r.2)
  | none => ((r.1.2.DID, none), r.2)

/-- `Client.SetPublicDID`. -/
def Client.SetPublicDID (c : Client) (did : String) (log : List Request) :
    (DID × Option Error) × List Request :=
  let r0 : didResult := {}
  let queryParams := [("did", did)]
  let r := c.post "/wallet/did/public" queryParams none ResponseKind.toDidResult r0 log
  match r.1.1 with
  | some err => (({}, some err), r.2)
  | none => ((r.1.2.DID, none), r.2)

/-- `Client.SetDIDEndpointInWallet`. -/
def Client.SetDIDEndpointInWallet (c : Client) (did endpoint endpointType : String)
    (log : List Request) : Option Error × List Request :=
  let setDIDEndpointRequest :=
    [("did", did), ("endpoint", endpoint), ("endpoint_type", endpointType)]
  let r := c.post "/wallet/set-did-endpoint" [] (some setDIDEndpointRequest)
    ResponseKind.toNil () log
  (r.1.1, r.2)

/-- `Client.GetDIDEndpointFromWallet`. -/
def Client.GetDIDEndpointFromWallet (c : Client) (did : String) (log : List Request) :
    (String × Option Error) × List Request :=
  let r0 : didEndpoint := {}
  let queryParams := [("did", did)]
  let r := c.get "/wallet/get-did-endpoint" queryParams ResponseKind.toDidEndpoint r0 log
  match r.1.1 with
  | some err => (("", some err), r.2)
  | none => ((r.1.2.Endpoint, none), r.2)

/-- `Client.RotateKeypair`. -/
def Client.RotateKeypair (c : Client) (did : String) (log : List Request) :
    Option Error × List Request :=
  let queryParams := [("did", did)]
  let r := c.patch "/wallet/did/local/rotate-keypair" queryParams none ResponseKind.toNil () log
  (r.1.1, r.2)

/-! ## Derived notions used in the statements -/

/-- The four slots of the application state that hold the latest snapshots. -/
def App.slots (app : App) :
    Connection × CredentialExchangeRecord × PresentationExchangeRecord × RevocationRegistry :=
  (app.connection, app.credentialExchange, app.presentationExchange, app.revocationRegistry)

/-- The payload of the last credential exchange event of a sequence, if there is one. -/
def lastCredentialExchangeEvent : List Event → Option CredentialExchangeRecord
  | [] => none
  | e :: es =>
    match lastCredentialExchangeEvent es with
    | some p => some p
    | none =>
      match e with
      | Event.CredentialExchange p => some p
      | _ => none

/-- The payload of the last presentation exchange event of a sequence, if there is one. -/
def lastPresentationExchangeEvent : List Event → Option PresentationExchangeRecord
  | [] => none
  | e :: es =>
    match lastPresentationExchangeEvent es with
    | some p => some p
    | none =>
      match e with
      | Event.PresentationExchange p => some p
      | _ => none

/-- The payload of the last revocation registry event of a sequence, if there is one. -/
def lastRevocationRegistryEvent : List Event → Option RevocationRegistry
  | [] => none
  | e :: es =>
    match lastRevocationRegistryEvent es with
    | some p => some p
    | none =>
      match e with
      | Event.RevocationRegistry p => some p
      | _ => none

/-! ## Concrete agents and inputs for the examples -/

/-- An agent that answers every call with the zero value and no error. -/
def Agent.silent : Agent where
  CreateOutOfBandInvitation := fun _ _ _ _ => ({}, none)
  ReceiveOutOfBandInvitation := fun _ _ _ => ({}, none)
  RegisterSchema := fun _ _ _ _ => ({}, none)
  CreateCredentialDefinition := fun _ _ _ _ _ => ("", none)
  IssueCredential := fun _ _ _ _ _ _ _ => ({}, none)
  CredentialMimeTypes := fun _ _ => ([], none)
  SendPresentationProposal := fun _ _ => ({}, none)
  SendPresentationRequestByID := fun _ _ _ => ({}, none)
  FindMatchingCredentials := fun _ _ => ([], [], none)
  SendPresentationByID := fun _ _ _ => ({}, none)
  VerifyPresentationByID := fun _ _ => ({}, none)
  GetPresentationCredentialsByID := fun _ _ _ _ _ _ => ([], none)
  GetConnection := fun _ _ => ({}, none)

/-- An agent whose every connection has the label "Bob". -/
def Example.agentBob : Agent :=
  { Agent.silent with GetConnection := fun _ _ => ({ TheirLabel := "Bob" }, none) }

/-- An agent whose connection has the label "Bob" at the first call made on it and
"Carol" afterwards. -/
def Example.agentBobThenCarol : Agent :=
  { Agent.silent with
    GetConnection := fun calls _ =>
      match calls with
      | [] => ({ TheirLabel := "Bob" }, none)
      | _ :: _ => ({ TheirLabel := "Carol" }, none) }

/-- A connection event without alias. -/
def Example.noAlias : Connection :=
  { ConnectionID := "c1", State := "active" }

/-- A connection event with an alias. -/
def Example.withAlias : Connection :=
  { ConnectionID := "c1", Alias := "Alice", State := "active" }

/-- Two snapshots of a credential exchange around a presentation exchange event. -/
def Example.threeEvents : List Event :=
  [Event.CredentialExchange { CredentialExchangeID := "x1", State := "offer_sent" },
   Event.PresentationExchange { PresentationExchangeID := "p1", State := "request_sent" },
   Event.CredentialExchange { CredentialExchangeID := "x1", State := "credential_acked" }]

/-- A proposal attribute named "name". -/
def Example.nameAttribute : PresentationAttribute :=
  { Name := "name", CredentialDefinitionID := "cd-1", Value := "Alice", Referent := "cred-1" }

/-- An application state whose presentation exchange "p1" holds a proposal with the
single attribute "name" and a request for the attributes "name" and "age". -/
def Example.appWithProposal : App :=
  { connection := { ConnectionID := "c1" }
    presentationExchange :=
      { PresentationExchangeID := "p1"
        PresentationProposalDict :=
          { PresentationProposal := { Attributes := [Example.nameAttribute] } }
        PresentationRequest :=
          { RequestedAttributes :=
              [("name", { Name := "name" }), ("age", { Name := "age" })] } } }

/-- A surrounding with the given agent and a clock that stands still at
1700000000 s. -/
def Example.env (agent : Agent) : Env where
  agent := agent
  clock := fun _ => 1700000000000000000
  DefaultHandshakeProtocols := []
  Unmarshal := fun s => ({ json := s }, none)

/-- A surrounding whose clock starts at 1700000000.95 s and advances by a tenth of
a second between readings, so that the first two readings fall in different
seconds. -/
def Example.crossingEnv : Env where
  agent := Agent.silent
  clock := fun n => 1700000000950000000 + 100000000 * n
  DefaultHandshakeProtocols := []
  Unmarshal := fun s => ({ json := s }, none)

/-- A surrounding whose clock advances by a third of a second between readings. -/
def Example.tickingEnv : Env where
  agent := Agent.silent
  clock := fun n => 1700000000000000000 + 333333333 * n
  DefaultHandshakeProtocols := []
  Unmarshal := fun s => ({ json := s }, none)

/-- An agent whose credential matcher finds a credential for "name" and reports
"age" as unmatched. -/
def Example.agentUnmatched : Agent :=
  { Agent.silent with
    FindMatchingCredentials := fun _ _ => ([("name", "cred-1")], ["age"], none) }

/-- An agent whose credential matcher finds a credential for every attribute. -/
def Example.agentMatched : Agent :=
  { Agent.silent with
    FindMatchingCredentials := fun _ _ => ([("name", "cred-1"), ("age", "cred-1")], [], none) }

/-- An agent that answers a verification with a verified record. -/
def Example.agentVerified : Agent :=
  { Agent.silent with
    VerifyPresentationByID := fun _ id =>
      ({ PresentationExchangeID := id, State := "verified" }, none) }

/-- The application state of `Example.appWithProposal` once the presentation
exchange "p1" has been verified. -/
def Example.verifiedApp : App :=
  { Example.appWithProposal with
    presentationExchange := { PresentationExchangeID := "p1", State := "verified" } }

/-- A transport on which every request fails after the response object for a
connection has been partly filled. -/
def Example.failingClient : Client where
  transport := fun _ _ k out =>
    match k, out with
    | ResponseKind.toConnection, _ =>
      (some "connection refused", ({ ConnectionID := "partial" } : Connection))
    | ResponseKind.toResults, out => (some "connection refused", out)
    | ResponseKind.toDidResult, out => (some "connection refused", out)
    | ResponseKind.toDidEndpoint, out => (some "connection refused", out)
    | ResponseKind.toNil, out => (some "connection refused", out)

/-- A transport on which every request succeeds; a connection is decoded as the
connection "c1" in the state "request". -/
def Example.okClient : Client where
  transport := fun _ _ k out =>
    match k, out with
    | ResponseKind.toConnection, _ =>
      (none, ({ ConnectionID := "c1", State := "request" } : Connection))
    | ResponseKind.toResults, out => (none, out)
    | ResponseKind.toDidResult, out => (none, out)
    | ResponseKind.toDidEndpoint, out => (none, out)
    | ResponseKind.toNil, out => (none, out)

/-! ## Theorems: the event handlers -/

/-- After a sequence of notifications, each of the three slots holds the payload
of the last event of its kind, or its former content when no event of the kind
was delivered. -/
theorem App.deliverAll_slots (agent : Agent) (es : List Event) (app : App) (w : World) :
    (App.deliverAll agent es app w).1.credentialExchange
        = (lastCredentialExchangeEvent es).getD app.credentialExchange ∧
    (App.deliverAll agent es app w).1.presentationExchange
        = (lastPresentationExchangeEvent es).getD app.presentationExchange ∧
    (App.deliverAll agent es app w).1.revocationRegistry
        = (lastRevocationRegistryEvent es).getD app.revocationRegistry := by
  induction es generalizing app w with
  | nil => simp [App.deliverAll, lastCredentialExchangeEvent, lastPresentationExchangeEvent,
      lastRevocationRegistryEvent]
  | cons e es ih =>
    obtain ⟨h1, h2, h3⟩ := ih (app.deliver agent e w).1 (app.deliver agent e w).2
    simp only [App.deliverAll]
    rw [h1, h2, h3]
    simp only [lastCredentialExchangeEvent, lastPresentationExchangeEvent,
      lastRevocationRegistryEvent]
    refine ⟨?_, ?_, ?_⟩
    · cases hl : lastCredentialExchangeEvent es with
      | some p => simp
      | none =>
        cases e <;>
          simp [App.deliver, App.ConnectionsEventHandler, App.ProblemReportEventHandler,
            App.CredentialExchangeEventHandler, App.RevocationRegistryEventHandler,
            App.PresentationExchangeEventHandler, App.CredentialRevocationEventHandler,
            App.OutOfBandEventHandler]
        split <;> rfl
    · cases hl : lastPresentationExchangeEvent es with
      | some p => simp
      | none =>
        cases e <;>
          simp [App.deliver, App.ConnectionsEventHandler, App.ProblemReportEventHandler,
            App.CredentialExchangeEventHandler, App.RevocationRegistryEventHandler,
            App.PresentationExchangeEventHandler, App.CredentialRevocationEventHandler,
            App.OutOfBandEventHandler]
        split <;> rfl
    · cases hl : lastRevocationRegistryEvent es with
      | some p => simp
      | none =>
        cases e <;>
          simp [App.deliver, App.ConnectionsEventHandler, App.ProblemReportEventHandler,
            App.CredentialExchangeEventHandler, App.RevocationRegistryEventHandler,
            App.PresentationExchangeEventHandler, App.CredentialRevocationEventHandler,
            App.OutOfBandEventHandler]
        split <;> rfl

/-- C1 (last write wins): for every application state, every sequence of
notifications, and every behaviour of the remote agent, once the sequence has
been processed the credential exchange, presentation exchange and revocation
registry slots each equal the payload of the last-delivered event of their kind,
whenever the sequence has an event of that kind. -/
theorem last_write_wins (agent : Agent) (es : List Event) (app : App) (w : World) :
    (∀ p, lastCredentialExchangeEvent es = some p →
      (App.deliverAll agent es app w).1.credentialExchange = p) ∧
    (∀ p, lastPresentationExchangeEvent es = some p →
      (App.deliverAll agent es app w).1.presentationExchange = p) ∧
    (∀ p, lastRevocationRegistryEvent es = some p →
      (App.deliverAll agent es app w).1.revocationRegistry = p) := by
  obtain ⟨h1, h2, h3⟩ := App.deliverAll_slots agent es app w
  refine ⟨?_, ?_, ?_⟩
  · intro p hp
    rw [h1, hp]
    rfl
  · intro p hp
    rw [h2, hp]
    rfl
  · intro p hp
    rw [h3, hp]
    rfl

/-- Witness of C1: after an offer, a presentation update and an acknowledgement,
the credential exchange slot holds the acknowledgement and the presentation
exchange slot holds the presentation update. -/
theorem last_write_wins_witness :
    (App.deliverAll Example.agentBob Example.threeEvents {} {}).1.credentialExchange
        = { CredentialExchangeID := "x1", State := "credential_acked" } ∧
    (App.deliverAll Example.agentBob Example.threeEvents {} {}).1.presentationExchange
        = { PresentationExchangeID := "p1", State := "request_sent" } :=
  ⟨(last_write_wins Example.agentBob Example.threeEvents {} {}).1 _ rfl,
   (last_write_wins Example.agentBob Example.threeEvents {} {}).2.1 _ rfl⟩

/-- C2, as stated, fails: a connection event without alias, delivered while the
agent reports the label "Bob", is stored with the alias "Bob", so the connection
slot differs from the delivered payload. -/
theorem connection_slot_not_payload :
    ¬ ∀ (agent : Agent) (event : Connection) (app : App) (w : World),
      (app.ConnectionsEventHandler agent event w).1.connection = event := by
  intro h
  have h1 := h Example.agentBob Example.noAlias {} {}
  have h2 : (({} : App).ConnectionsEventHandler Example.agentBob Example.noAlias {}).1.connection.Alias
      = "Bob" := by decide
  rw [h1] at h2
  exact absurd h2 (by decide)

/-- C2 (amended): after `ConnectionsEventHandler` the connection slot equals the
delivered payload when the payload has an alias, and then no call is made on the
agent; when the alias of the payload is empty, one `GetConnection` call is made
for the connection of the event, and the slot equals the payload with the alias
replaced by the label of the connection that the agent returned, all other fields
being those of the payload. -/
theorem connection_slot_after_event (agent : Agent) (event : Connection) (app : App)
    (w : World) :
    (event.Alias ≠ "" →
      (app.ConnectionsEventHandler agent event w).1.connection = event ∧
      (app.ConnectionsEventHandler agent event w).2 = w) ∧
    (event.Alias = "" →
      (app.ConnectionsEventHandler agent event w).1.connection
        = { event with Alias := (agent.GetConnection w.calls event.ConnectionID).1.TheirLabel } ∧
      (app.ConnectionsEventHandler agent event w).2.calls
        = w.calls ++ [Call.GetConnection event.ConnectionID]) := by
  constructor
  · intro h
    simp [App.ConnectionsEventHandler, h]
  · intro h
    simp [App.ConnectionsEventHandler, h, World.GetConnection]

/-- Witness of C2 (amended): an event with the alias "Alice" is stored as delivered,
and an event without alias is stored with the label "Bob" reported by the agent. -/
theorem connection_slot_after_event_witness :
    (({} : App).ConnectionsEventHandler Example.agentBob Example.withAlias {}).1.connection
        = Example.withAlias ∧
    (({} : App).ConnectionsEventHandler Example.agentBob Example.noAlias {}).1.connection
        = { Example.noAlias with Alias := "Bob" } :=
  ⟨((connection_slot_after_event Example.agentBob Example.withAlias {} {}).1
      (by decide)).1,
   ((connection_slot_after_event Example.agentBob Example.noAlias {} {}).2 rfl).1⟩

/-- C6, as stated, fails: a connection event without alias delivered twice, while
the agent reports the label "Bob" at its first call and "Carol" afterwards, leaves
the alias "Bob" after the first delivery and "Carol" after the second. -/
theorem redelivery_changes_connection_slot :
    ¬ ∀ (agent : Agent) (e : Event) (app : App) (w : World),
      (App.deliver agent e (App.deliver agent e app w).1 (App.deliver agent e app w).2).1.slots
        = (App.deliver agent e app w).1.slots := by
  intro h
  have h1 := h Example.agentBobThenCarol (Event.Connections Example.noAlias) {} {}
  revert h1
  decide

/-- C6 (amended): delivering an event twice in a row leaves the four slots as
they were after the first delivery, for every answer of the remote agent, when
the event goes to one of the six handlers other than `ConnectionsEventHandler`;
for a connection event the same holds when the event has an alias, or when the
connections returned by the two `GetConnection` calls carry the same label. -/
theorem redelivery_idempotent (agent : Agent) (e : Event) (app : App) (w : World) :
    ((∀ c, e ≠ Event.Connections c) →
      (App.deliver agent e (App.deliver agent e app w).1 (App.deliver agent e app w).2).1.slots
        = (App.deliver agent e app w).1.slots) ∧
    (∀ c, e = Event.Connections c →
      (c.Alias ≠ "" ∨
        (agent.GetConnection (w.calls ++ [Call.GetConnection c.ConnectionID])
            c.ConnectionID).1.TheirLabel
          = (agent.GetConnection w.calls c.ConnectionID).1.TheirLabel) →
      (App.deliver agent e (App.deliver agent e app w).1 (App.deliver agent e app w).2).1.slots
        = (App.deliver agent e app w).1.slots) := by
  constructor
  · intro hne
    cases e with
    | Connections c => exact absurd rfl (hne c)
    | ProblemReport _ => rfl
    | CredentialExchange _ => rfl
    | RevocationRegistry _ => rfl
    | PresentationExchange _ => rfl
    | CredentialRevocation _ => rfl
    | OutOfBand _ => rfl
  · intro c hc hsame
    subst hc
    by_cases ha : c.Alias = ""
    · rcases hsame with h | h
      · exact absurd ha h
      · simp [App.deliver, App.ConnectionsEventHandler, ha, World.GetConnection, App.slots, h]
    · simp [App.deliver, App.ConnectionsEventHandler, ha, App.slots]

/-- Witness of C6 (amended): a credential exchange event delivered twice, and a
connection event without alias delivered twice to an agent that always reports
the label "Bob", leave the slots as after the first delivery. -/
theorem redelivery_idempotent_witness :
    (App.deliver Example.agentBobThenCarol (Event.CredentialExchange { State := "done" })
        (App.deliver Example.agentBobThenCarol (Event.CredentialExchange { State := "done" })
          {} {}).1
        (App.deliver Example.agentBobThenCarol (Event.CredentialExchange { State := "done" })
          {} {}).2).1.slots
      = (App.deliver Example.agentBobThenCarol (Event.CredentialExchange { State := "done" })
          {} {}).1.slots ∧
    (App.deliver Example.agentBob (Event.Connections Example.noAlias)
        (App.deliver Example.agentBob (Event.Connections Example.noAlias) {} {}).1
        (App.deliver Example.agentBob (Event.Connections Example.noAlias) {} {}).2).1.slots
      = (App.deliver Example.agentBob (Event.Connections Example.noAlias) {} {}).1.slots :=
  ⟨(redelivery_idempotent Example.agentBobThenCarol
      (Event.CredentialExchange { State := "done" }) {} {}).1 (by intro c h; cases h),
   (redelivery_idempotent Example.agentBob (Event.Connections Example.noAlias) {} {}).2
      Example.noAlias rfl (Or.inr rfl)⟩

/-- C7 (each handler touches at most its own slot): for every application state,
event and behaviour of the remote agent, `ConnectionsEventHandler`,
`CredentialExchangeEventHandler`, `PresentationExchangeEventHandler` and
`RevocationRegistryEventHandler` change no field of the application state other
than the slot of their own kind, and `ProblemReportEventHandler`,
`CredentialRevocationEventHandler` and `OutOfBandEventHandler` leave the
application state as it was. -/
theorem handlers_frame (agent : Agent) (app : App) (w : World) :
    (∀ event, { (app.ConnectionsEventHandler agent event w).1 with
        connection := app.connection } = app) ∧
    (∀ event, { (app.CredentialExchangeEventHandler agent event w).1 with
        credentialExchange := app.credentialExchange } = app) ∧
    (∀ event, { (app.PresentationExchangeEventHandler agent event w).1 with
        presentationExchange := app.presentationExchange } = app) ∧
    (∀ event, { (app.RevocationRegistryEventHandler agent event w).1 with
        revocationRegistry := app.revocationRegistry } = app) ∧
    (∀ event, (app.ProblemReportEventHandler agent event w).1 = app) ∧
    (∀ event, (app.CredentialRevocationEventHandler agent event w).1 = app) ∧
    (∀ event, (app.OutOfBandEventHandler agent event w).1 = app) := by
  refine ⟨?_, ?_, ?_, ?_, ?_, ?_, ?_⟩
  · intro event
    unfold App.ConnectionsEventHandler
    split <;> rfl
  · intro event
    rfl
  · intro event
    rfl
  · intro event
    rfl
  · intro event
    rfl
  · intro event
    rfl
  · intro event
    rfl

/-! ## Theorems: the non-revocation windows of case "7" -/

/-- One week before a clock reading, in Unix seconds. -/
theorem Time.Unix_week_before (t : Time) : (t.Add (-Hour * 24 * 7)).Unix = t.Unix - 604800 := by
  unfold Time.Add Time.Unix Hour
  omega

/-- One week after a clock reading, in Unix seconds. -/
theorem Time.Unix_week_after (t : Time) : (t.Add (Hour * 24 * 7)).Unix = t.Unix + 604800 := by
  unfold Time.Add Time.Unix Hour
  omega

/-- `Time.Unix` is monotone. -/
theorem Time.Unix_mono {s t : Time} (h : s ≤ t) : s.Unix ≤ t.Unix :=
  Int.ediv_le_ediv (by decide) h

/-- An entry of a map after an assignment is the assigned one or an old one. -/
theorem mem_mapSet {β : Type} (m : List (String × β)) (k : String) (v : β) (kv : String × β)
    (h : kv ∈ mapSet m k v) : kv = (k, v) ∨ kv ∈ m := by
  induction m with
  | nil =>
    simp only [mapSet, List.mem_singleton] at h
    exact Or.inl h
  | cons hd tl ih =>
    obtain ⟨k0, v0⟩ := hd
    simp only [mapSet] at h
    split at h
    · rcases List.mem_cons.1 h with h | h
      · exact Or.inl h
      · exact Or.inr (List.mem_cons_of_mem _ h)
    · rcases List.mem_cons.1 h with h | h
      · exact Or.inr (h ▸ List.mem_cons_self _ _)
      · rcases ih h with h | h
        · exact Or.inl h
        · exact Or.inr (List.mem_cons_of_mem _ h)

/-- The loop of case "7" keeps the calls and the operator input and takes two
clock readings per attribute; every entry that it adds has the interval from one
week before the first reading of a pass of the loop to the second reading of
that pass. -/
theorem App.ReadCommands.requestedAttributes_spec (clock : Nat → Time)
    (attrs : List PresentationAttribute) (m : List (String × RequestedAttribute)) (w : World) :
    (App.ReadCommands.requestedAttributes clock attrs m w).2.calls = w.calls ∧
    (App.ReadCommands.requestedAttributes clock attrs m w).2.stdin = w.stdin ∧
    (App.ReadCommands.requestedAttributes clock attrs m w).2.ticks
      = w.ticks + 2 * attrs.length ∧
    ∀ kv ∈ (App.ReadCommands.requestedAttributes clock attrs m w).1,
      kv ∈ m ∨ ∃ i, i < attrs.length ∧
        kv.2.NonRevoked =
          { From := (clock (w.ticks + 2 * i)).Unix - 604800
            To := (clock (w.ticks + 2 * i + 1)).Unix } := by
  induction attrs generalizing m w with
  | nil =>
    simp only [App.ReadCommands.requestedAttributes, List.length_nil, Nat.mul_zero,
      Nat.add_zero, true_and]
    exact fun kv h => Or.inl h
  | cons attr rest ih =>
    simp only [App.ReadCommands.requestedAttributes, World.Now]
    obtain ⟨h1, h2, h3, h4⟩ := ih
      (mapSet m attr.Name
        { Restrictions := [], Name := attr.Name, Names := [],
          NonRevoked :=
            { From := ((clock w.ticks).Add (-Hour * 24 * 7)).Unix
              To := (clock (w.ticks + 1)).Unix } })
      { calls := w.calls, stdin := w.stdin, ticks := w.ticks + 1 + 1 }
    refine ⟨h1, h2, ?_, ?_⟩
    · rw [h3]
      simp only [List.length_cons]
      omega
    · intro kv hkv
      rcases h4 kv hkv with h | ⟨i, hi, h⟩
      · rcases mem_mapSet _ _ _ _ h with h | h
        · right
          refine ⟨0, by simp, ?_⟩
          rw [h, Time.Unix_week_before]
          rfl
        · exact Or.inl h
      · right
        refine ⟨i + 1, by simp only [List.length_cons]; omega, ?_⟩
        have e1 : w.ticks + 1 + 1 + 2 * i = w.ticks + 2 * (i + 1) := by omega
        simp only [e1] at h
        exact h

/-- The assigned key is in the map after the assignment. -/
theorem mapSet_mem_self {β : Type} (m : List (String × β)) (k : String) (v : β) :
    (k, v) ∈ mapSet m k v := by
  induction m with
  | nil => simp [mapSet]
  | cons hd tl ih =>
    obtain ⟨k0, v0⟩ := hd
    simp only [mapSet]
    split
    · exact List.mem_cons_self _ _
    · exact List.mem_cons_of_mem _ ih

/-- A key of the map is still a key after an assignment. -/
theorem mapSet_keeps_key {β : Type} (m : List (String × β)) (k : String) (v : β)
    (k1 : String) (h : ∃ v1, (k1, v1) ∈ m) : ∃ v1, (k1, v1) ∈ mapSet m k v := by
  induction m with
  | nil =>
    obtain ⟨v1, h1⟩ := h
    cases h1
  | cons hd tl ih =>
    obtain ⟨k0, v0⟩ := hd
    obtain ⟨v1, h1⟩ := h
    simp only [mapSet]
    split
    · rename_i hk
      rcases List.mem_cons.1 h1 with h1 | h1
      · refine ⟨v, ?_⟩
        have : k1 = k0 := congrArg Prod.fst h1
        rw [this, hk]
        exact List.mem_cons_self _ _
      · exact ⟨v1, List.mem_cons_of_mem _ h1⟩
    · rcases List.mem_cons.1 h1 with h1 | h1
      · exact ⟨v1, h1 ▸ List.mem_cons_self _ _⟩
      · obtain ⟨v2, h2⟩ := ih ⟨v1, h1⟩
        exact ⟨v2, List.mem_cons_of_mem _ h2⟩

/-- After the loop of case "7" every key of the initial map and the name of every
attribute ranged over is a key of the map. -/
theorem App.ReadCommands.requestedAttributes_keys (clock : Nat → Time)
    (attrs : List PresentationAttribute) (m : List (String × RequestedAttribute)) (w : World) :
    (∀ k, (∃ v, (k, v) ∈ m) →
      ∃ v, (k, v) ∈ (App.ReadCommands.requestedAttributes clock attrs m w).1) ∧
    (∀ attr ∈ attrs,
      ∃ v, (attr.Name, v) ∈ (App.ReadCommands.requestedAttributes clock attrs m w).1) := by
  induction attrs generalizing m w with
  | nil =>
    simp only [App.ReadCommands.requestedAttributes]
    exact ⟨fun k h => h, fun attr h => by cases h⟩
  | cons attr rest ih =>
    simp only [App.ReadCommands.requestedAttributes]
    constructor
    · intro k hk
      exact (ih _ _).1 k (mapSet_keeps_key m _ _ k hk)
    · intro a ha
      rcases List.mem_cons.1 ha with ha | ha
      · subst ha
        exact (ih _ _).1 a.Name ⟨_, mapSet_mem_self m _ _⟩
      · exact (ih _ _).2 a ha

/-- Reading a line of the operator takes no clock reading. -/
theorem World.Scan_ticks (w : World) : w.Scan.2.ticks = w.ticks := by
  unfold World.Scan
  split <;> rfl

/-- C8, as stated, fails: with a clock that does not decrease but passes a second
boundary between the two readings of a pass of the loop (1700000000.95 s, then
1700000001.05 s), the interval that case "7" builds for the attribute "name" is
1699395200 to 1700000001, which is `now - 604800` to `now` for no `now`; the global
interval, 1699395201 to 1700604801, is taken from two later readings. -/
theorem attribute_window_spans_two_readings :
    (App.ReadCommands.case7 Example.crossingEnv Example.appWithProposal {}).2.calls
      = [Call.SendPresentationRequestByID "p1"
          { Trace := false
            Comment := ""
            ConnectionID := "c1"
            ProofRequest :=
              { Name := "Proof request"
                Nonce := "1234567890"
                RequestedPredicates := []
                RequestedAttributes :=
                  [("name",
                    { Restrictions := []
                      Name := "name"
                      Names := []
                      NonRevoked := { From := 1699395200, To := 1700000001 } })]
                Version := "1.0"
                NonRevoked := some { From := 1699395201, To := 1700604801 } } }] ∧
    ¬ ∃ now : Int,
      ({ From := 1699395200, To := 1700000001 } : NonRevoked)
        = { From := now - 604800, To := now } := by
  refine ⟨by decide, ?_⟩
  rintro ⟨now, h⟩
  have h1 : (1699395200 : Int) = now - 604800 := congrArg NonRevoked.From h
  have h2 : (1700000001 : Int) = now := congrArg NonRevoked.To h
  omega

/-- C8 (amended): case "7" makes one `SendPresentationRequestByID` call whose
request has an entry for every attribute of the proposal.  The clock is read
twice in each pass of the loop and twice more for the proof request: each
requested attribute has `From` equal to the Unix second of the first reading of
a pass minus 604800 and `To` equal to the Unix second of the second reading of
that pass, and the global interval has `From` equal to the Unix second of the
reading after the loop minus 604800 and `To` equal to the Unix second of the
next reading plus 604800.  Hence, when every reading falls in the Unix second
`now`, each attribute interval is `now - 604800` to `now` and the global interval
is `now - 604800` to `now + 604800`; and when the successive readings do not
decrease, every interval of the request has `From ≤ To`. -/
theorem default_non_revocation_windows (env : Env) (app : App) (w : World) :
    ∃ request : PresentationRequestRequest,
      (App.ReadCommands.case7 env app w).2.calls
        = w.calls ++ [Call.SendPresentationRequestByID
            app.presentationExchange.PresentationExchangeID request] ∧
      (∀ attr ∈ app.presentationExchange.PresentationProposalDict.PresentationProposal.Attributes,
        ∃ ra, (attr.Name, ra) ∈ request.ProofRequest.RequestedAttributes) ∧
      (∀ kv ∈ request.ProofRequest.RequestedAttributes,
        ∃ i, i < app.presentationExchange.PresentationProposalDict.PresentationProposal.Attributes.length ∧
          kv.2.NonRevoked =
            { From := (env.clock (w.ticks + 2 * i)).Unix - 604800
              To := (env.clock (w.ticks + 2 * i + 1)).Unix }) ∧
      request.ProofRequest.NonRevoked = some
        { From := (env.clock (w.ticks + 2 *
            app.presentationExchange.PresentationProposalDict.PresentationProposal.Attributes.length)).Unix
              - 604800
          To := (env.clock (w.ticks + 2 *
            app.presentationExchange.PresentationProposalDict.PresentationProposal.Attributes.length
              + 1)).Unix + 604800 } ∧
      (∀ now : Int, (∀ n, (env.clock n).Unix = now) →
        request.ProofRequest.NonRevoked = some { From := now - 604800, To := now + 604800 } ∧
        ∀ kv ∈ request.ProofRequest.RequestedAttributes,
          kv.2.NonRevoked = { From := now - 604800, To := now }) ∧
      (Monotone env.clock →
        (∃ nr, request.ProofRequest.NonRevoked = some nr ∧ nr.From ≤ nr.To) ∧
        ∀ kv ∈ request.ProofRequest.RequestedAttributes,
          kv.2.NonRevoked.From ≤ kv.2.NonRevoked.To) := by
  obtain ⟨hc, -, ht, hiv⟩ := App.ReadCommands.requestedAttributes_spec env.clock
    app.presentationExchange.PresentationProposalDict.PresentationProposal.Attributes [] w.Scan.2
  rw [World.Scan_ticks] at ht
  simp only [World.Scan_ticks] at hiv
  have hkeys := (App.ReadCommands.requestedAttributes_keys env.clock
    app.presentationExchange.PresentationProposalDict.PresentationProposal.Attributes []
    w.Scan.2).2
  have hscan : w.Scan.2.calls = w.calls := by
    unfold World.Scan
    split <;> rfl
  have hattr : ∀ kv ∈ (App.ReadCommands.requestedAttributes env.clock
      app.presentationExchange.PresentationProposalDict.PresentationProposal.Attributes []
      w.Scan.2).1,
      ∃ i, i < app.presentationExchange.PresentationProposalDict.PresentationProposal.Attributes.length ∧
        kv.2.NonRevoked =
          { From := (env.clock (w.ticks + 2 * i)).Unix - 604800
            To := (env.clock (w.ticks + 2 * i + 1)).Unix } := by
    intro kv hkv
    rcases hiv kv hkv with h | h
    · cases h
    · exact h
  refine ⟨(App.ReadCommands.presentationRequest env.clock app w.Scan.1 w.Scan.2).1,
    ?_, ?_, ?_, ?_, ?_, ?_⟩
  · simp only [App.ReadCommands.case7, App.ReadCommands.presentationRequest, World.Now,
      World.record]
    rw [← hscan, ← hc]
    split <;> rfl
  · exact hkeys
  · exact hattr
  · simp only [App.ReadCommands.presentationRequest, World.Now, Time.Unix_week_before,
      Time.Unix_week_after, ht]
  · intro now hnow
    simp only [App.ReadCommands.presentationRequest, World.Now, Time.Unix_week_before,
      Time.Unix_week_after, hnow, true_and]
    intro kv hkv
    obtain ⟨i, -, h⟩ := hattr kv hkv
    rw [h, hnow, hnow]
  · intro hmono
    simp only [App.ReadCommands.presentationRequest, World.Now, Time.Unix_week_before,
      Time.Unix_week_after]
    constructor
    · refine ⟨_, rfl, ?_⟩
      have := Time.Unix_mono (hmono (Nat.le_add_right
        (App.ReadCommands.requestedAttributes env.clock
          app.presentationExchange.PresentationProposalDict.PresentationProposal.Attributes []
          w.Scan.2).2.ticks 1))
      simp only
      omega
    · intro kv hkv
      obtain ⟨i, -, h⟩ := hattr kv hkv
      rw [h]
      have := Time.Unix_mono (hmono (Nat.le_add_right (w.ticks + 2 * i) 1))
      simp only
      omega

/-- Witness of C8 (amended): with the clock standing still at 1700000000 s, the
request of case "7" for the proposal attribute "name" has the global interval from
1699395200 to 1700604800 and the attribute interval from 1699395200 to 1700000000;
with the clock that passes a second boundary, the attribute interval runs from one
week before the second of the first reading to the second of the second reading,
1699395200 to 1700000001, and the global interval from 1699395201 to 1700604801;
with a clock that advances, every interval has `From ≤ To`. -/
theorem default_non_revocation_windows_witness :
    (∃ request : PresentationRequestRequest,
      (App.ReadCommands.case7 (Example.env Agent.silent) Example.appWithProposal {}).2.calls
        = [Call.SendPresentationRequestByID "p1" request] ∧
      (∃ ra, ("name", ra) ∈ request.ProofRequest.RequestedAttributes) ∧
      request.ProofRequest.NonRevoked = some { From := 1699395200, To := 1700604800 } ∧
      ∀ kv ∈ request.ProofRequest.RequestedAttributes,
        kv.2.NonRevoked = { From := 1699395200, To := 1700000000 }) ∧
    (∃ request : PresentationRequestRequest,
      (App.ReadCommands.case7 Example.crossingEnv Example.appWithProposal {}).2.calls
        = [Call.SendPresentationRequestByID "p1" request] ∧
      request.ProofRequest.NonRevoked = some { From := 1699395201, To := 1700604801 } ∧
      ∀ kv ∈ request.ProofRequest.RequestedAttributes,
        kv.2.NonRevoked = { From := 1699395200, To := 1700000001 }) ∧
    (∃ request : PresentationRequestRequest,
      (App.ReadCommands.case7 Example.tickingEnv Example.appWithProposal {}).2.calls
        = [Call.SendPresentationRequestByID "p1" request] ∧
      ∀ kv ∈ request.ProofRequest.RequestedAttributes,
        kv.2.NonRevoked.From ≤ kv.2.NonRevoked.To) := by
  refine ⟨?_, ?_, ?_⟩
  · obtain ⟨request, h1, h2, -, -, h3, -⟩ :=
      default_non_revocation_windows (Example.env Agent.silent) Example.appWithProposal {}
    exact ⟨request, h1, h2 Example.nameAttribute (List.mem_cons_self _ _),
      (h3 1700000000 (fun _ => rfl)).1, (h3 1700000000 (fun _ => rfl)).2⟩
  · obtain ⟨request, h1, -, h2, h3, -, -⟩ :=
      default_non_revocation_windows Example.crossingEnv Example.appWithProposal {}
    refine ⟨request, h1, h3, ?_⟩
    intro kv hkv
    obtain ⟨i, hi, h⟩ := h2 kv hkv
    have hi0 : i = 0 := by
      have : i < 1 := hi
      omega
    subst hi0
    rw [h]
    rfl
  · obtain ⟨request, h1, -, -, -, -, h4⟩ :=
      default_non_revocation_windows Example.tickingEnv Example.appWithProposal {}
    have hmono : Monotone Example.tickingEnv.clock := by
      intro a b hab
      show (1700000000000000000 : Int) + 333333333 * a ≤ 1700000000000000000 + 333333333 * b
      omega
    exact ⟨request, h1, (h4 hmono).2⟩

/-! ## Theorems: the commands -/

/-- Reading a line of the operator makes no call on the agent. -/
theorem World.Scan_calls (w : World) : w.Scan.2.calls = w.calls := by
  unfold World.Scan
  split <;> rfl

/-- The construction of the request of case "7" makes no call on the agent. -/
theorem App.ReadCommands.presentationRequest_calls (clock : Nat → Time) (app : App)
    (comment : String) (w : World) :
    (App.ReadCommands.presentationRequest clock app comment w).2.calls = w.calls := by
  simp only [App.ReadCommands.presentationRequest, World.Now]
  exact (App.ReadCommands.requestedAttributes_spec clock _ [] w).1

/-- The loop of case "5" makes no call on the agent. -/
theorem App.ReadCommands.previewAttributes_calls (names : List String)
    (attributes : List CredentialPreviewAttribute) (w : World) :
    (App.ReadCommands.previewAttributes names attributes w).2.calls = w.calls := by
  induction names generalizing attributes w with
  | nil => rfl
  | cons attr rest ih =>
    simp only [App.ReadCommands.previewAttributes]
    rw [ih, World.Scan_calls]

/-- C3, as stated, fails: when the credential matcher reports the attribute "age"
as unmatched, the submit-presentation command still calls `SendPresentationByID`,
with a proof that has the attribute "name" only, and the loop goes on without
reporting a failure. -/
theorem incomplete_proof_is_submitted :
    (Example.agentUnmatched.FindMatchingCredentials []
        Example.appWithProposal.presentationExchange.PresentationRequest).2.1 = ["age"] ∧
    (App.ReadCommands.switch (Example.env Example.agentUnmatched) "8"
        Example.appWithProposal {}).2.calls
      = [Call.FindMatchingCredentials
            Example.appWithProposal.presentationExchange.PresentationRequest,
         Call.SendPresentationByID "p1" { RequestedAttributes := [("name", "cred-1")] }] ∧
    (App.ReadCommands.switch (Example.env Example.agentUnmatched) "8"
        Example.appWithProposal {}).1
      = Outcome.running { Example.appWithProposal with presentationExchange := {} } := by
  decide

/-- C3 (amended): in the submit-presentation command, when `FindMatchingCredentials`
returns no error, exactly one `SendPresentationByID` call follows it, whatever the
unmatched set is, with the identifier of the current presentation exchange and the
proof built from the matched attributes that were returned. -/
theorem submit_presentation_sends_matched (env : Env) (app : App) (w : World)
    (_h : (env.agent.FindMatchingCredentials w.calls
        app.presentationExchange.PresentationRequest).2.2 = none) :
    (App.ReadCommands.switch env "8" app w).2.calls
      = w.calls ++
        [Call.FindMatchingCredentials app.presentationExchange.PresentationRequest,
         Call.SendPresentationByID app.presentationExchange.PresentationExchangeID
           { RequestedAttributes :=
               (env.agent.FindMatchingCredentials w.calls
                 app.presentationExchange.PresentationRequest).1
             Second := []
             Third := [] }] := by
  have hs : App.ReadCommands.switch env "8" app w = App.ReadCommands.case8 env app w := by
    simp [App.ReadCommands.switch]
  rw [hs]
  simp only [App.ReadCommands.case8, World.record]
  split <;> simp

/-- Witness of C3 (amended): with a matcher that finds both attributes and with a
matcher that reports "age" as unmatched, the command makes the matching call and
then one `SendPresentationByID` call. -/
theorem submit_presentation_sends_matched_witness :
    (App.ReadCommands.switch (Example.env Example.agentMatched) "8"
        Example.appWithProposal {}).2.calls
      = [Call.FindMatchingCredentials
            Example.appWithProposal.presentationExchange.PresentationRequest,
         Call.SendPresentationByID "p1"
           { RequestedAttributes := [("name", "cred-1"), ("age", "cred-1")] }] :=
  submit_presentation_sends_matched (Example.env Example.agentMatched)
    Example.appWithProposal {} rfl

/-- C4, as stated, fails: from the zero-valued application state, whose proposal
attribute set is empty, the request-presentation command calls
`SendPresentationRequestByID` with a request that has no requested attribute, and
the loop goes on without a validation error. -/
theorem empty_proposal_request_is_sent :
    ({} : App).presentationExchange.PresentationProposalDict.PresentationProposal.Attributes
      = [] ∧
    (App.ReadCommands.switch (Example.env Agent.silent) "7" {} {}).2.calls
      = [Call.SendPresentationRequestByID ""
          { Trace := false
            Comment := ""
            ConnectionID := ""
            ProofRequest :=
              { Name := "Proof request"
                Nonce := "1234567890"
                RequestedPredicates := []
                RequestedAttributes := []
                Version := "1.0"
                NonRevoked := some { From := 1699395200, To := 1700604800 } } }] ∧
    (App.ReadCommands.switch (Example.env Agent.silent) "7" {} {}).1 = Outcome.running {} := by
  decide

/-- C4 (amended): in the request-presentation command, when the proposal attribute
set of the current presentation exchange is empty, no validation takes place:
exactly one call is made on the agent, `SendPresentationRequestByID` for the
current presentation exchange with a request that has no requested attribute,
and the command ends the process with an error exactly when the agent answers
that call with that error. -/
theorem request_presentation_with_empty_proposal (env : Env) (app : App) (w : World)
    (h : app.presentationExchange.PresentationProposalDict.PresentationProposal.Attributes
      = []) :
    ∃ request : PresentationRequestRequest,
      request.ProofRequest.RequestedAttributes = [] ∧
      (App.ReadCommands.switch env "7" app w).2.calls
        = w.calls ++ [Call.SendPresentationRequestByID
            app.presentationExchange.PresentationExchangeID request] ∧
      ∀ err, (App.ReadCommands.switch env "7" app w).1 = Outcome.exited err ↔
        ∃ e, err = some e ∧
          (env.agent.SendPresentationRequestByID w.calls
            app.presentationExchange.PresentationExchangeID request).2 = some e := by
  have hs : App.ReadCommands.switch env "7" app w = App.ReadCommands.case7 env app w := by
    simp [App.ReadCommands.switch]
  have hc := App.ReadCommands.presentationRequest_calls env.clock app w.Scan.1 w.Scan.2
  rw [World.Scan_calls] at hc
  refine ⟨(App.ReadCommands.presentationRequest env.clock app w.Scan.1 w.Scan.2).1, ?_, ?_, ?_⟩
  · simp [App.ReadCommands.presentationRequest, h, App.ReadCommands.requestedAttributes]
  · rw [hs]
    simp only [App.ReadCommands.case7, World.record]
    rw [hc]
    split <;> rfl
  · intro err
    rw [hs]
    simp only [App.ReadCommands.case7]
    rw [hc]
    split
    · rename_i e he
      constructor
      · intro h1
        injection h1 with h1
        exact ⟨e, h1.symm, he⟩
      · rintro ⟨e1, h1, h2⟩
        rw [he] at h2
        rw [h1, ← Option.some.inj h2]
    · rename_i he
      constructor
      · intro h1
        cases h1
      · rintro ⟨e1, -, h2⟩
        rw [he] at h2
        cases h2

/-- Witness of C4 (amended): from the zero-valued application state the command
makes one `SendPresentationRequestByID` call with no requested attribute. -/
theorem request_presentation_with_empty_proposal_witness :
    ∃ request : PresentationRequestRequest,
      request.ProofRequest.RequestedAttributes = [] ∧
      (App.ReadCommands.switch (Example.env Agent.silent) "7" {} {}).2.calls
        = [Call.SendPresentationRequestByID "" request] := by
  obtain ⟨request, h1, h2, -⟩ :=
    request_presentation_with_empty_proposal (Example.env Agent.silent) {} {} rfl
  exact ⟨request, h1, h2⟩

/-- C5, as stated, fails: the verify-presentation command, answered by the agent
with a verified record, writes that record into the presentation exchange slot,
so the slots after a command need not equal the slots before it. -/
theorem command_writes_slot :
    ¬ ∀ (env : Env) (command : String) (app : App) (w : World) (app1 : App) (w1 : World),
      App.ReadCommands.switch env command app w = (Outcome.running app1, w1) →
      app1.connection = app.connection ∧
      app1.credentialExchange = app.credentialExchange ∧
      app1.presentationExchange = app.presentationExchange := by
  intro h
  have h1 := h (Example.env Example.agentVerified) "9" Example.appWithProposal {}
    Example.verifiedApp { calls := [Call.VerifyPresentationByID "p1"] } (by decide)
  exact absurd h1.2.2 (by decide)

/-- C5 (amended): when a pass of the command switch lets the loop go on, the
commands "1", "3", "4" and "10" leave the connection, credential exchange and
presentation exchange slots as they were; "2" changes at most the connection slot,
which becomes the connection returned by `ReceiveOutOfBandInvitation`; "5" changes
at most the credential exchange slot, which becomes the record returned by
`IssueCredential`; "6", "7", "8" and "9" change at most the presentation exchange
slot, which becomes the record returned by the last call of the command
(`SendPresentationProposal`, `SendPresentationRequestByID`, `SendPresentationByID`,
`VerifyPresentationByID`). -/
theorem command_slot_writes (env : Env) (command : String) (app : App) (w : World)
    (app1 : App) (w1 : World)
    (h : App.ReadCommands.switch env command app w = (Outcome.running app1, w1)) :
    (command = "1" ∨ command = "3" ∨ command = "4" ∨ command = "10" →
      app1.connection = app.connection ∧
      app1.credentialExchange = app.credentialExchange ∧
      app1.presentationExchange = app.presentationExchange) ∧
    (command = "2" →
      { app1 with connection := app.connection } = app ∧
      ∃ pre invitation, w1.calls = pre ++ [Call.ReceiveOutOfBandInvitation invitation true] ∧
        app1.connection = (env.agent.ReceiveOutOfBandInvitation pre invitation true).1) ∧
    (command = "5" →
      { app1 with credentialExchange := app.credentialExchange } = app ∧
      ∃ pre preview comment,
        w1.calls = pre ++ [Call.IssueCredential app.connection.ConnectionID preview comment
          app.credentialDefinitionID app.myDID app.schema.ID] ∧
        app1.credentialExchange = (env.agent.IssueCredential pre app.connection.ConnectionID
          preview comment app.credentialDefinitionID app.myDID app.schema.ID).1) ∧
    (command = "6" →
      { app1 with presentationExchange := app.presentationExchange } = app ∧
      ∃ pre proposal, w1.calls = pre ++ [Call.SendPresentationProposal proposal] ∧
        app1.presentationExchange = (env.agent.SendPresentationProposal pre proposal).1) ∧
    (command = "7" →
      { app1 with presentationExchange := app.presentationExchange } = app ∧
      ∃ pre request,
        w1.calls = pre ++ [Call.SendPresentationRequestByID
          app.presentationExchange.PresentationExchangeID request] ∧
        app1.presentationExchange = (env.agent.SendPresentationRequestByID pre
          app.presentationExchange.PresentationExchangeID request).1) ∧
    (command = "8" →
      { app1 with presentationExchange := app.presentationExchange } = app ∧
      ∃ pre proof,
        w1.calls = pre ++ [Call.SendPresentationByID
          app.presentationExchange.PresentationExchangeID proof] ∧
        app1.presentationExchange = (env.agent.SendPresentationByID pre
          app.presentationExchange.PresentationExchangeID proof).1) ∧
    (command = "9" →
      { app1 with presentationExchange := app.presentationExchange } = app ∧
      w1.calls = w.calls ++ [Call.VerifyPresentationByID
        app.presentationExchange.PresentationExchangeID] ∧
      app1.presentationExchange = (env.agent.VerifyPresentationByID w.calls
        app.presentationExchange.PresentationExchangeID).1) := by
  refine ⟨?_, ?_, ?_, ?_, ?_, ?_, ?_⟩
  · rintro (hc | hc | hc | hc) <;> subst hc
    · simp only [App.ReadCommands.switch, App.ReadCommands.case1] at h
      simp only [String.reduceEq, if_false, if_true] at h
      split at h
      · cases h
      · injection h with h1 h2
        injection h1 with h1
        subst h1
        exact ⟨rfl, rfl, rfl⟩
    · simp only [App.ReadCommands.switch, App.ReadCommands.case3] at h
      simp only [String.reduceEq, if_false, if_true] at h
      split at h
      · cases h
      · injection h with h1 h2
        injection h1 with h1
        subst h1
        exact ⟨rfl, rfl, rfl⟩
    · simp only [App.ReadCommands.switch, App.ReadCommands.case4] at h
      simp only [String.reduceEq, if_false, if_true] at h
      split at h
      · cases h
      · injection h with h1 h2
        injection h1 with h1
        subst h1
        exact ⟨rfl, rfl, rfl⟩
    · simp only [App.ReadCommands.switch, App.ReadCommands.case10] at h
      simp only [String.reduceEq, if_false, if_true] at h
      split at h
      · cases h
      · injection h with h1 h2
        injection h1 with h1
        subst h1
        exact ⟨rfl, rfl, rfl⟩
  · intro hc
    subst hc
    simp only [App.ReadCommands.switch, App.ReadCommands.case2] at h
    simp only [String.reduceEq, if_false, if_true] at h
    split at h
    · cases h
    · rename_i hnone
      injection h with h1 h2
      injection h1 with h1
      subst h1
      subst h2
      refine ⟨rfl, ?_⟩
      simp only [App.ReceiveInvitation] at hnone ⊢
      cases hd : (env.Unmarshal w.Scan.1).2 with
      | some e =>
        simp only [hd] at hnone
        cases hnone
      | none =>
        simp only [hd]
        exact ⟨_, _, rfl, rfl⟩
  · intro hc
    subst hc
    simp only [App.ReadCommands.switch, App.ReadCommands.case5] at h
    simp only [String.reduceEq, if_false, if_true] at h
    split at h
    · cases h
    · injection h with h1 h2
      injection h1 with h1
      subst h1
      subst h2
      exact ⟨rfl, _, _, _, rfl, rfl⟩
  · intro hc
    subst hc
    simp only [App.ReadCommands.switch, App.ReadCommands.case6] at h
    simp only [String.reduceEq, if_false, if_true] at h
    split at h
    · cases h
    · injection h with h1 h2
      injection h1 with h1
      subst h1
      subst h2
      exact ⟨rfl, _, _, rfl, rfl⟩
  · intro hc
    subst hc
    simp only [App.ReadCommands.switch, App.ReadCommands.case7] at h
    simp only [String.reduceEq, if_false, if_true] at h
    split at h
    · cases h
    · injection h with h1 h2
      injection h1 with h1
      subst h1
      subst h2
      exact ⟨rfl, _, _, rfl, rfl⟩
  · intro hc
    subst hc
    simp only [App.ReadCommands.switch, App.ReadCommands.case8] at h
    simp only [String.reduceEq, if_false, if_true] at h
    split at h
    · cases h
    · injection h with h1 h2
      injection h1 with h1
      subst h1
      subst h2
      exact ⟨rfl, _, _, rfl, rfl⟩
  · intro hc
    subst hc
    simp only [App.ReadCommands.switch, App.ReadCommands.case9] at h
    simp only [String.reduceEq, if_false, if_true] at h
    split at h
    · cases h
    · injection h with h1 h2
      injection h1 with h1
      subst h1
      subst h2
      exact ⟨rfl, rfl, rfl⟩

/-- Witness of C5 (amended): the verify-presentation command, answered with a
verified record, changes the presentation exchange slot to that record and
nothing else. -/
theorem command_slot_writes_witness :
    { Example.verifiedApp with
        presentationExchange := Example.appWithProposal.presentationExchange }
      = Example.appWithProposal ∧
    Example.verifiedApp.presentationExchange
      = (Example.agentVerified.VerifyPresentationByID [] "p1").1 :=
  ⟨((command_slot_writes (Example.env Example.agentVerified) "9" Example.appWithProposal {}
      Example.verifiedApp { calls := [Call.VerifyPresentationByID "p1"] }
      (by decide)).2.2.2.2.2.2 rfl).1,
   ((command_slot_writes (Example.env Example.agentVerified) "9" Example.appWithProposal {}
      Example.verifiedApp { calls := [Call.VerifyPresentationByID "p1"] }
      (by decide)).2.2.2.2.2.2 rfl).2.2⟩

/-! ## Theorems: the client calls -/

/-- C9 (transport results are returned faithfully): each of
`DIDExchangeAcceptInvitation`, `DIDExchangeAcceptRequest` and
`DIDExchangeCreateRequest` makes exactly one request, a POST on its DID-exchange
path with a zero-valued connection as response object; when that request fails
with the error `e`, the result is the zero-valued connection and `e`, whatever the
transport left in the response object; when it succeeds, the result is the
decoded connection and no error. -/
theorem did_exchange_results (c : Client) (log : List Request) :
    (∀ connectionID myEndpoint myLabel, ∃ rq : Request,
      rq.method = Method.POST ∧
      rq.path = "/didexchange/" ++ connectionID ++ "/accept-invitation" ∧
      (c.DIDExchangeAcceptInvitation connectionID myEndpoint myLabel log).2 = log ++ [rq] ∧
      (∀ e out, c.transport log rq ResponseKind.toConnection {} = (some e, out) →
        (c.DIDExchangeAcceptInvitation connectionID myEndpoint myLabel log).1
          = ({}, some e)) ∧
      (∀ out, c.transport log rq ResponseKind.toConnection {} = (none, out) →
        (c.DIDExchangeAcceptInvitation connectionID myEndpoint myLabel log).1
          = (out, none))) ∧
    (∀ connectionID myEndpoint, ∃ rq : Request,
      rq.method = Method.POST ∧
      rq.path = "/didexchange/" ++ connectionID ++ "/accept-request" ∧
      (c.DIDExchangeAcceptRequest connectionID myEndpoint log).2 = log ++ [rq] ∧
      (∀ e out, c.transport log rq ResponseKind.toConnection {} = (some e, out) →
        (c.DIDExchangeAcceptRequest connectionID myEndpoint log).1 = ({}, some e)) ∧
      (∀ out, c.transport log rq ResponseKind.toConnection {} = (none, out) →
        (c.DIDExchangeAcceptRequest connectionID myEndpoint log).1 = (out, none))) ∧
    (∀ theirPublicDID mediationID myEndpoint myLabel, ∃ rq : Request,
      rq.method = Method.POST ∧
      rq.path = "/didexchange/create-request" ∧
      (c.DIDExchangeCreateRequest theirPublicDID mediationID myEndpoint myLabel log).2
        = log ++ [rq] ∧
      (∀ e out, c.transport log rq ResponseKind.toConnection {} = (some e, out) →
        (c.DIDExchangeCreateRequest theirPublicDID mediationID myEndpoint myLabel log).1
          = ({}, some e)) ∧
      (∀ out, c.transport log rq ResponseKind.toConnection {} = (none, out) →
        (c.DIDExchangeCreateRequest theirPublicDID mediationID myEndpoint myLabel log).1
          = (out, none))) := by
  refine ⟨?_, ?_, ?_⟩
  · intro connectionID myEndpoint myLabel
    refine ⟨{ method := Method.POST
              path := "/didexchange/" ++ connectionID ++ "/accept-invitation"
              queryParams := [("my_endpoint", myEndpoint), ("my_label", myLabel)] },
      rfl, rfl, ?_, ?_, ?_⟩
    · simp only [Client.DIDExchangeAcceptInvitation, Client.post]
      split <;> rfl
    · intro e out h
      simp [Client.DIDExchangeAcceptInvitation, Client.post, h]
    · intro out h
      simp [Client.DIDExchangeAcceptInvitation, Client.post, h]
  · intro connectionID myEndpoint
    refine ⟨{ method := Method.POST
              path := "/didexchange/" ++ connectionID ++ "/accept-request"
              queryParams := [("my_endpoint", myEndpoint)] },
      rfl, rfl, ?_, ?_, ?_⟩
    · simp only [Client.DIDExchangeAcceptRequest, Client.post]
      split <;> rfl
    · intro e out h
      simp [Client.DIDExchangeAcceptRequest, Client.post, h]
    · intro out h
      simp [Client.DIDExchangeAcceptRequest, Client.post, h]
  · intro theirPublicDID mediationID myEndpoint myLabel
    refine ⟨{ method := Method.POST
              path := "/didexchange/create-request"
              queryParams :=
                [("their_public_did", theirPublicDID), ("mediation_id", mediationID),
                 ("my_endpoint", myEndpoint), ("my_label", myLabel)] },
      rfl, rfl, ?_, ?_, ?_⟩
    · simp only [Client.DIDExchangeCreateRequest, Client.post]
      split <;> rfl
    · intro e out h
      simp [Client.DIDExchangeCreateRequest, Client.post, h]
    · intro out h
      simp [Client.DIDExchangeCreateRequest, Client.post, h]

/-- Witness of C9: on a transport that fails after partly filling the response
object, accepting an invitation makes one request and returns the zero-valued
connection with the error of the transport; on a transport that succeeds,
creating a request returns the decoded connection. -/
theorem did_exchange_results_witness :
    (Example.failingClient.DIDExchangeAcceptInvitation "c1" "http://me" "me" []).1
        = ({}, some "connection refused") ∧
    (Example.okClient.DIDExchangeCreateRequest "did:sov:1" "" "http://me" "me" []).1
        = ({ ConnectionID := "c1", State := "request" }, none) := by
  constructor
  · obtain ⟨rq, -, -, h3, h4, -⟩ :=
      (did_exchange_results Example.failingClient []).1 "c1" "http://me" "me"
    exact h4 "connection refused" { ConnectionID := "partial" } rfl
  · obtain ⟨rq, -, -, h3, -, h5⟩ :=
      (did_exchange_results Example.okClient []).2.2 "did:sov:1" "" "http://me" "me"
    exact h5 { ConnectionID := "c1", State := "request" } rfl

/-- C10 (the code at the failing input): every call of `CreateLocalDID` makes one
request, a POST on the path "/wallet/didResult/create", which is not the route
"/wallet/did/create" of the wallet admin API; the other six wallet calls make one
request each on the routes `GET /wallet/did`, `GET /wallet/did/public`,
`POST /wallet/did/public`, `POST /wallet/set-did-endpoint`,
`GET /wallet/get-did-endpoint` and `PATCH /wallet/did/local/rotate-keypair`. -/
theorem wallet_routes (c : Client) (log : List Request) :
    ((c.CreateLocalDID log).2
        = log ++ [{ method := Method.POST, path := "/wallet/didResult/create" }] ∧
      "/wallet/didResult/create" ≠ "/wallet/did/create") ∧
    (∀ params, ∃ rq : Request, (c.QueryDIDs params log).2 = log ++ [rq] ∧
      rq.method = Method.GET ∧ rq.path = "/wallet/did") ∧
    (∃ rq : Request, (c.GetPublicDID log).2 = log ++ [rq] ∧
      rq.method = Method.GET ∧ rq.path = "/wallet/did/public") ∧
    (∀ did, ∃ rq : Request, (c.SetPublicDID did log).2 = log ++ [rq] ∧
      rq.method = Method.POST ∧ rq.path = "/wallet/did/public") ∧
    (∀ did endpoint endpointType, ∃ rq : Request,
      (c.SetDIDEndpointInWallet did endpoint endpointType log).2 = log ++ [rq] ∧
      rq.method = Method.POST ∧ rq.path = "/wallet/set-did-endpoint") ∧
    (∀ did, ∃ rq : Request, (c.GetDIDEndpointFromWallet did log).2 = log ++ [rq] ∧
      rq.method = Method.GET ∧ rq.path = "/wallet/get-did-endpoint") ∧
    (∀ did, ∃ rq : Request, (c.RotateKeypair did log).2 = log ++ [rq] ∧
      rq.method = Method.PATCH ∧ rq.path = "/wallet/did/local/rotate-keypair") := by
  refine ⟨⟨?_, by decide⟩, ?_, ?_, ?_, ?_, ?_, ?_⟩
  · simp only [Client.CreateLocalDID, Client.post]
    split <;> rfl
  · intro params
    refine ⟨{ method := Method.GET
              path := "/wallet/did"
              queryParams :=
                [("did", params.DID), ("verkey", params.VerKey), ("posture", params.Posture),
                 ("key_type", params.KeyType), ("method", params.Method)] }, ?_, rfl, rfl⟩
    simp only [Client.QueryDIDs, Client.get]
    split <;> rfl
  · refine ⟨{ method := Method.GET, path := "/wallet/did/public" }, ?_, rfl, rfl⟩
    simp only [Client.GetPublicDID, Client.get]
    split <;> rfl
  · intro did
    refine ⟨{ method := Method.POST, path := "/wallet/did/public"
              queryParams := [("did", did)] }, ?_, rfl, rfl⟩
    simp only [Client.SetPublicDID, Client.post]
    split <;> rfl
  · intro did endpoint endpointType
    exact ⟨_, rfl, rfl, rfl⟩
  · intro did
    refine ⟨{ method := Method.GET, path := "/wallet/get-did-endpoint"
              queryParams := [("did", did)] }, ?_, rfl, rfl⟩
    simp only [Client.GetDIDEndpointFromWallet, Client.get]
    split <;> rfl
  · intro did
    exact ⟨_, rfl, rfl, rfl⟩

end Acapy
